import Mathlib

/-!
Verification of the chromaprint fingerprint compression codec
(`src/chromaprint/src/compression/{pack,compress,decompress}.rs`).

Machine integers are modelled as `Nat` with explicit wrap-around where the
Rust code can wrap in a release build: a `u8` shift-left result is reduced
`% 256`, `u8` addition in the decompressor's replay loop is reduced `% 256`,
`u8` subtraction wraps, and a `u32` shift amount is masked `% 32`.
Fallible code returns `Except`; a possible runtime panic (the `unwrap` on the
extension queue) is modelled by wrapping the result in `Option`, with `none`
standing for a panic.  A separate `Checked` variant of the replay loop models
a debug build, where any `u8` overflow or out-of-range `u32` shift amount is
a panic (`none`).
-/

/-- Wrapping `u8` shift-left: Rust `x << k` on `u8` discards bits shifted
beyond bit 7. -/
def shl8 (x k : Nat) : Nat := (x <<< k) % 256

/-- Wrapping `u8` subtraction (release semantics), for `a b ≤ 256`. -/
def sub8 (a b : Nat) : Nat := (a + (256 - b)) % 256

/-- Release-semantics `u32` shift of 1 by `s`: the shift amount is masked. -/
def u32shl1 (s : Nat) : Nat := (1 <<< (s % 32)) % 4294967296

/-- `pack3_size` from `pack.rs`: bytes needed to pack `count` 3-bit values. -/
def pack3_size (count : Nat) : Nat := (count * 3 + 7) / 8

/-- `pack3` from `pack.rs`.  The Rust function appends to an output vector;
here it returns the appended bytes.  Strides of 8 elements become 3 bytes,
the final partial stride (1–7 elements) uses the explicit layouts of the
source. -/
def pack3 : List Nat → List Nat
  | s0 :: s1 :: s2 :: s3 :: s4 :: s5 :: s6 :: s7 :: rest =>
      ((s0 &&& 7) ||| ((s1 &&& 7) <<< 3) ||| shl8 s2 6) ::
      (((s2 &&& 4) >>> 2) ||| ((s3 &&& 7) <<< 1) ||| ((s4 &&& 7) <<< 4) ||| shl8 s5 7) ::
      (((s5 &&& 6) >>> 1) ||| ((s6 &&& 7) <<< 2) ||| ((s7 &&& 7) <<< 5)) ::
      pack3 rest
  | [t0, t1, t2, t3, t4, t5, t6] =>
      [(t0 &&& 7) ||| ((t1 &&& 7) <<< 3) ||| shl8 t2 6,
       ((t2 &&& 4) >>> 2) ||| ((t3 &&& 7) <<< 1) ||| ((t4 &&& 7) <<< 4) ||| shl8 t5 7,
       ((t5 &&& 6) >>> 1) ||| ((t6 &&& 7) <<< 2)]
  | [t0, t1, t2, t3, t4, t5] =>
      [(t0 &&& 7) ||| ((t1 &&& 7) <<< 3) ||| shl8 t2 6,
       ((t2 &&& 4) >>> 2) ||| ((t3 &&& 7) <<< 1) ||| ((t4 &&& 7) <<< 4) ||| shl8 t5 7,
       (t5 &&& 6) >>> 1]
  | [t0, t1, t2, t3, t4] =>
      [(t0 &&& 7) ||| ((t1 &&& 7) <<< 3) ||| shl8 t2 6,
       ((t2 &&& 4) >>> 2) ||| ((t3 &&& 7) <<< 1) ||| ((t4 &&& 7) <<< 4)]
  | [t0, t1, t2, t3] =>
      [(t0 &&& 7) ||| ((t1 &&& 7) <<< 3) ||| shl8 t2 6,
       ((t2 &&& 4) >>> 2) ||| ((t3 &&& 7) <<< 1)]
  | [t0, t1, t2] =>
      [(t0 &&& 7) ||| ((t1 &&& 7) <<< 3) ||| shl8 t2 6,
       (t2 &&& 4) >>> 2]
  | [t0, t1] =>
      [(t0 &&& 7) ||| ((t1 &&& 7) <<< 3)]
  | [t0] =>
      [t0 &&& 7]
  | [] => []

/-- `unpack3` from `pack.rs`: 3 bytes yield 8 elements; a 2-byte remainder
yields 5 elements, a 1-byte remainder yields 2. -/
def unpack3 : List Nat → List Nat
  | b0 :: b1 :: b2 :: rest =>
      (b0 &&& 7) ::
      ((b0 >>> 3) &&& 7) ::
      ((b0 >>> 6) ||| ((b1 &&& 1) <<< 2)) ::
      ((b1 >>> 1) &&& 7) ::
      ((b1 >>> 4) &&& 7) ::
      ((b1 >>> 7) ||| ((b2 &&& 3) <<< 1)) ::
      ((b2 >>> 2) &&& 7) ::
      (b2 >>> 5) ::
      unpack3 rest
  | [b0, b1] =>
      [b0 &&& 7,
       (b0 >>> 3) &&& 7,
       (b0 >>> 6) ||| ((b1 &&& 1) <<< 2),
       (b1 >>> 1) &&& 7,
       (b1 >>> 4) &&& 7]
  | [b0] =>
      [b0 &&& 7,
       (b0 >>> 3) &&& 7]
  | [] => []

/-- `pack5_size` from `pack.rs`: deliberately not a tight ceiling. -/
def pack5_size (count : Nat) : Nat := (count / 8 + 1) * 5

/-- `pack5` from `pack.rs`: strides of 8 elements become 5 bytes; the final
partial stride uses the explicit layouts of the source. -/
def pack5 : List Nat → List Nat
  | c0 :: c1 :: c2 :: c3 :: c4 :: c5 :: c6 :: c7 :: rest =>
      ((c0 &&& 31) ||| shl8 c1 5) ::
      (((c1 &&& 24) >>> 3) ||| ((c2 &&& 31) <<< 2) ||| shl8 c3 7) ::
      (((c3 &&& 30) >>> 1) ||| shl8 c4 4) ::
      (((c4 &&& 16) >>> 4) ||| ((c5 &&& 31) <<< 1) ||| shl8 c6 6) ::
      (((c6 &&& 28) >>> 2) ||| ((c7 &&& 31) <<< 3)) ::
      pack5 rest
  | [t0, t1, t2, t3, t4, t5, t6] =>
      [(t0 &&& 31) ||| shl8 t1 5,
       ((t1 &&& 24) >>> 3) ||| ((t2 &&& 31) <<< 2) ||| shl8 t3 7,
       ((t3 &&& 30) >>> 1) ||| shl8 t4 4,
       ((t4 &&& 16) >>> 4) ||| ((t5 &&& 31) <<< 1) ||| shl8 t6 6,
       (t6 &&& 28) >>> 2]
  | [t0, t1, t2, t3, t4, t5] =>
      [(t0 &&& 31) ||| shl8 t1 5,
       ((t1 &&& 24) >>> 3) ||| ((t2 &&& 31) <<< 2) ||| shl8 t3 7,
       ((t3 &&& 30) >>> 1) ||| shl8 t4 4,
       ((t4 &&& 16) >>> 4) ||| ((t5 &&& 31) <<< 1)]
  | [t0, t1, t2, t3, t4] =>
      [(t0 &&& 31) ||| shl8 t1 5,
       ((t1 &&& 24) >>> 3) ||| ((t2 &&& 31) <<< 2) ||| shl8 t3 7,
       ((t3 &&& 30) >>> 1) ||| shl8 t4 4,
       (t4 &&& 16) >>> 4]
  | [t0, t1, t2, t3] =>
      [(t0 &&& 31) ||| shl8 t1 5,
       ((t1 &&& 24) >>> 3) ||| ((t2 &&& 31) <<< 2) ||| shl8 t3 7,
       (t3 &&& 30) >>> 1]
  | [t0, t1, t2] =>
      [(t0 &&& 31) ||| shl8 t1 5,
       ((t1 &&& 24) >>> 3) ||| ((t2 &&& 31) <<< 2)]
  | [t0, t1] =>
      [(t0 &&& 31) ||| shl8 t1 5,
       (t1 &&& 24) >>> 3]
  | [t0] =>
      [t0 &&& 31]
  | [] => []

/-- `unpack5` from `pack.rs`: 5 bytes yield 8 elements; a remainder of
1/2/3/4 bytes yields 1/3/4/6 elements (the trailing pushes are cumulative
in the source). -/
def unpack5 : List Nat → List Nat
  | b0 :: b1 :: b2 :: b3 :: b4 :: rest =>
      (b0 &&& 31) ::
      ((b0 >>> 5) ||| ((b1 &&& 3) <<< 3)) ::
      ((b1 >>> 2) &&& 31) ::
      ((b1 >>> 7) ||| ((b2 &&& 15) <<< 1)) ::
      ((b2 >>> 4) ||| ((b3 &&& 1) <<< 4)) ::
      ((b3 >>> 1) &&& 31) ::
      ((b3 >>> 6) ||| ((b4 &&& 7) <<< 2)) ::
      (b4 >>> 3) ::
      unpack5 rest
  | [b0, b1, b2, b3] =>
      [b0 &&& 31,
       (b0 >>> 5) ||| ((b1 &&& 3) <<< 3),
       (b1 >>> 2) &&& 31,
       (b1 >>> 7) ||| ((b2 &&& 15) <<< 1),
       (b2 >>> 4) ||| ((b3 &&& 1) <<< 4),
       (b3 >>> 1) &&& 31]
  | [b0, b1, b2] =>
      [b0 &&& 31,
       (b0 >>> 5) ||| ((b1 &&& 3) <<< 3),
       (b1 >>> 2) &&& 31,
       (b1 >>> 7) ||| ((b2 &&& 15) <<< 1)]
  | [b0, b1] =>
      [b0 &&& 31,
       (b0 >>> 5) ||| ((b1 &&& 3) <<< 3),
       (b1 >>> 2) &&& 31]
  | [b0] =>
      [b0 &&& 31]
  | [] => []

/-! ### Compressor (`compress.rs`) -/

/-- The inner bit-walking loop of `compress_fingerprint`, with explicit fuel
(the Rust loop runs while `precompressed_fp != 0`, halving it each step, so
any fuel larger than the iteration count gives the loop's behaviour; callers
pass `v + 1`).  Returns the spans and span extensions pushed for one
sub-fingerprint, in push order. -/
def encodeBitsAux : Nat → Nat → Nat → Nat → List Nat × List Nat
  | 0, _, _, _ => ([], [])
  | fuel + 1, v, bitIndex, lastBitIndex =>
      if v = 0 then ([], [])
      else if v % 2 = 1 then
        let span := bitIndex - lastBitIndex
        let rest := encodeBitsAux fuel (v / 2) (bitIndex + 1) bitIndex
        if 7 ≤ span then (7 :: rest.1, (span - 7) :: rest.2)
        else (span :: rest.1, rest.2)
      else
        encodeBitsAux fuel (v / 2) (bitIndex + 1) lastBitIndex

/-- Spans and extensions emitted for one pre-compressed (XORed)
sub-fingerprint, before the trailing terminator. -/
def encodeSub (v : Nat) : List Nat × List Nat := encodeBitsAux (v + 1) v 1 0

/-- The span/extension streams built by `compress_fingerprint`'s main loop:
each sub-fingerprint is XORed with its predecessor (`lastSubFp`, initially 0),
its delta is span-encoded, and a terminator 0 is appended per
sub-fingerprint. -/
def compressSpans : List Nat → Nat → List Nat × List Nat
  | [], _ => ([], [])
  | subFp :: rest, lastSubFp =>
      let enc := encodeSub (subFp ^^^ lastSubFp)
      let tailEnc := compressSpans rest subFp
      (enc.1 ++ 0 :: tailEnc.1, enc.2 ++ tailEnc.2)

/-- `compress_fingerprint` from `compress.rs`: header byte `fp_algo`,
3-byte big-endian count, packed spans, packed extensions. -/
def compress_fingerprint (fp : List Nat) (fpAlgo : Nat) : List Nat :=
  let streams := compressSpans fp 0
  fpAlgo ::
  ((fp.length >>> 16) &&& 255) ::
  ((fp.length >>> 8) &&& 255) ::
  (fp.length &&& 255) ::
  (pack3 streams.1 ++ pack5 streams.2)

/-! ### Decompressor (`decompress.rs`) -/

/-- The error type of `decompress_fingerprint`. -/
inductive DecompressError where
  | InputTooShort (len : Nat)
  | UnexpectedEndOfData
  | MissingExtension (expected actual : Nat)
  | IncompleteStride
  deriving DecidableEq, Repr

/-- The `try_fold` scan of `decompress_fingerprint`: walk the candidate
spans, counting terminators (`0`) and extended spans (`7`); stop with
`some (index, extCount)` at the index of the `length`-th terminator, or
`none` when the stream ends first. -/
def scanSpans (length : Nat) : List Nat → Nat → Nat → Nat → Option (Nat × Nat)
  | [], _, _, _ => none
  | span :: rest, index, elemCount, extCount =>
      if span = 0 then
        if elemCount + 1 = length then some (index, extCount)
        else scanSpans length rest (index + 1) (elemCount + 1) extCount
      else if span = 7 then scanSpans length rest (index + 1) elemCount (extCount + 1)
      else scanSpans length rest (index + 1) elemCount extCount

/-- `VecDeque::resize`: truncate or pad with `v` to length `n`. -/
def resize (l : List Nat) (n : Nat) (v : Nat) : List Nat :=
  l.take n ++ List.replicate (n - l.length) v

/-- The 24-bit big-endian count read from bytes 1–3 of the input. -/
def parseCount (compressed : List Nat) : Nat :=
  ((compressed.getD 1 0) <<< 16) ||| ((compressed.getD 2 0) <<< 8) ||| compressed.getD 3 0

/-- The replay loop of `decompress_fingerprint` (release semantics: the
`u8` offset wraps, the `u32` shift amount is masked).  `none` models the
panic of `exts.pop_front().unwrap()` on an empty extension queue.  Returns
the output sequence and the final value of the `fp` accumulator. -/
def replayR : List Nat → List Nat → Nat → Nat → Nat → List Nat →
    Option (List Nat × Nat)
  | [], _, _, _, fp, out => some (out, fp)
  | span :: rest, exts, bitOffset, fpPrev, fp, out =>
      if span = 0 then
        replayR rest exts 0 (fp ^^^ fpPrev) 0 (out ++ [fp ^^^ fpPrev])
      else if span = 7 then
        match exts with
        | [] => none
        | e :: exts =>
            let b := (bitOffset + (7 + e)) % 256
            replayR rest exts b fpPrev (fp ||| u32shl1 (sub8 b 1)) out
      else
        let b := (bitOffset + span) % 256
        replayR rest exts b fpPrev (fp ||| u32shl1 (sub8 b 1)) out

/-- `decompress_fingerprint` from `decompress.rs` (release semantics).
`none` models a panic; `some` carries the returned `Result`. -/
def decompress_fingerprint (compressed : List Nat) :
    Option (Except DecompressError (Nat × List Nat)) :=
  if compressed.length < 4 then
    some (.error (.InputTooShort compressed.length))
  else
    let algorithm := compressed.getD 0 0
    let length := parseCount compressed
    if compressed.length - 4 < length then
      some (.error .UnexpectedEndOfData)
    else
      let spans := unpack3 (compressed.drop 4)
      match scanSpans length spans 0 0 0 with
      | none => some (.error .UnexpectedEndOfData)
      | some (lastSpan, expectExts) =>
          let spans2 := resize spans (lastSpan + 1) 0
          let extOffset := 4 + pack3_size spans2.length
          let exts := unpack5 (compressed.drop extOffset)
          if exts.length < expectExts then
            some (.error (.MissingExtension expectExts exts.length))
          else
            match replayR spans2 exts 0 0 0 [] with
            | none => none
            | some (out, fp) =>
                if fp ≠ 0 then some (.error .IncompleteStride)
                else some (.ok (algorithm, out))

/-- The replay loop under debug semantics: a `u8` overflow of `bit_offset`
or a `u32` shift amount of 32 or more is an arithmetic-overflow panic
(`none`), exactly where a debug build of the Rust code panics. -/
def replayChecked : List Nat → List Nat → Nat → Nat → Nat → List Nat →
    Option (List Nat × Nat)
  | [], _, _, _, fp, out => some (out, fp)
  | span :: rest, exts, bitOffset, fpPrev, fp, out =>
      if span = 0 then
        replayChecked rest exts 0 (fp ^^^ fpPrev) 0 (out ++ [fp ^^^ fpPrev])
      else if span = 7 then
        match exts with
        | [] => none
        | e :: exts =>
            let b := bitOffset + (7 + e)
            if 255 < b then none
            else if 32 ≤ b - 1 then none
            else replayChecked rest exts b fpPrev (fp ||| (1 <<< (b - 1))) out
      else
        let b := bitOffset + span
        if 255 < b then none
        else if 32 ≤ b - 1 then none
        else replayChecked rest exts b fpPrev (fp ||| (1 <<< (b - 1))) out

/-- `decompress_fingerprint` under debug semantics: identical to the release
model except that the replay loop also panics on arithmetic overflow. -/
def decompressChecked (compressed : List Nat) :
    Option (Except DecompressError (Nat × List Nat)) :=
  if compressed.length < 4 then
    some (.error (.InputTooShort compressed.length))
  else
    let algorithm := compressed.getD 0 0
    let length := parseCount compressed
    if compressed.length - 4 < length then
      some (.error .UnexpectedEndOfData)
    else
      let spans := unpack3 (compressed.drop 4)
      match scanSpans length spans 0 0 0 with
      | none => some (.error .UnexpectedEndOfData)
      | some (lastSpan, expectExts) =>
          let spans2 := resize spans (lastSpan + 1) 0
          let extOffset := 4 + pack3_size spans2.length
          let exts := unpack5 (compressed.drop extOffset)
          if exts.length < expectExts then
            some (.error (.MissingExtension expectExts exts.length))
          else
            match replayChecked spans2 exts 0 0 0 [] with
            | none => none
            | some (out, fp) =>
                if fp ≠ 0 then some (.error .IncompleteStride)
                else some (.ok (algorithm, out))

/-! ### Spec-side definitions (from the spec's words, for refinement claims) -/

/-- Modelled from the spec: the 1-based positions of the set bits of a delta,
"scanned from least significant (bit positions 1..32)". -/
def specPositions (delta : Nat) : List Nat :=
  (List.range 32).filterMap fun k => if delta.testBit k then some (k + 1) else none

/-- Modelled from the spec: "For each set bit at position `i`:
`distance = i - last_set_index`; if `distance >= 7`, append span `7` and
append extension `distance - 7`; else append span `distance` (1..6).
Update `last_set_index = i`."  The state is (spans, extensions,
last_set_index). -/
def specStep (acc : List Nat × List Nat × Nat) (i : Nat) : List Nat × List Nat × Nat :=
  let d := i - acc.2.2
  if 7 ≤ d then (acc.1 ++ [7], acc.2.1 ++ [d - 7], i)
  else (acc.1 ++ [d], acc.2.1, i)

/-- Modelled from the spec: the spans (with trailing terminator 0) and
extensions for one delta value. -/
def specEncodeSub (delta : Nat) : List Nat × List Nat :=
  let acc := (specPositions delta).foldl specStep ([], [], 0)
  (acc.1 ++ [0], acc.2.1)

/-- Modelled from the spec: the XOR-delta sequence (`previous` starts at 0). -/
def specDeltas : List Nat → Nat → List Nat
  | [], _ => []
  | x :: rest, prev => (x ^^^ prev) :: specDeltas rest x

/-- Modelled from the spec: concatenation of the per-delta span streams and
of the per-delta extension streams. -/
def specStreams (fp : List Nat) : List Nat × List Nat :=
  let encs := (specDeltas fp 0).map specEncodeSub
  ((encs.map Prod.fst).flatten, (encs.map Prod.snd).flatten)

/-- The 0-based set-bit positions of a natural number, ascending (proof-side
helper used to relate the code's bit-walking loop to `specPositions`). -/
def natBits (v : Nat) : List Nat :=
  if h : v = 0 then []
  else
    (if v % 2 = 1 then [0] else []) ++ (natBits (v / 2)).map (· + 1)
decreasing_by exact Nat.div_lt_self (Nat.pos_of_ne_zero h) one_lt_two

/-- Proof-side helper: the recursive form of the spec's span/extension fold,
consuming a position list with a given `last_set_index`. -/
def specEncodeRec : List Nat → Nat → List Nat × List Nat
  | [], _ => ([], [])
  | i :: rest, last =>
      let d := i - last
      let tailEnc := specEncodeRec rest i
      if 7 ≤ d then (7 :: tailEnc.1, (d - 7) :: tailEnc.2)
      else (d :: tailEnc.1, tailEnc.2)

instance : DecidableEq (Except DecompressError (Nat × List Nat)) := fun a b => by
  cases a <;> cases b <;> simp [Except.error.injEq, Except.ok.injEq] <;> infer_instance

/-! ### Bit-arithmetic toolkit -/

theorem lor_mul_pow_eq_add (k a b : Nat) (h : a < 2 ^ k) :
    a ||| b * 2 ^ k = a + b * 2 ^ k := by
  apply Nat.eq_of_testBit_eq
  intro i
  have hr : a + b * 2 ^ k = 2 ^ k * b + a := by ring
  rw [Nat.testBit_lor, hr, Nat.testBit_mul_pow_two_add b h i]
  by_cases hik : i < k
  · have hb : (b * 2 ^ k).testBit i = false := by
      rw [← Nat.shiftLeft_eq, Nat.testBit_shiftLeft]
      simp [Nat.not_le.mpr hik]
    simp [hb, hik]
  · have ha : a.testBit i = false :=
      Nat.testBit_lt_two_pow
        (lt_of_lt_of_le h (Nat.pow_le_pow_right (by norm_num) (Nat.le_of_not_lt hik)))
    rw [← Nat.shiftLeft_eq, Nat.testBit_shiftLeft]
    simp [ha, hik, Nat.le_of_not_lt hik]

theorem lorAdd2 (a b : Nat) (h : a < 2) : a ||| b * 2 = a + b * 2 := by
  simpa using lor_mul_pow_eq_add 1 a b (by simpa using h)

theorem lorAdd4 (a b : Nat) (h : a < 4) : a ||| b * 4 = a + b * 4 := by
  simpa using lor_mul_pow_eq_add 2 a b (by simpa using h)

theorem lorAdd8 (a b : Nat) (h : a < 8) : a ||| b * 8 = a + b * 8 := by
  simpa using lor_mul_pow_eq_add 3 a b (by simpa using h)

theorem lorAdd16 (a b : Nat) (h : a < 16) : a ||| b * 16 = a + b * 16 := by
  simpa using lor_mul_pow_eq_add 4 a b (by simpa using h)

theorem lorAdd32 (a b : Nat) (h : a < 32) : a ||| b * 32 = a + b * 32 := by
  simpa using lor_mul_pow_eq_add 5 a b (by simpa using h)

theorem lorAdd64 (a b : Nat) (h : a < 64) : a ||| b * 64 = a + b * 64 := by
  simpa using lor_mul_pow_eq_add 6 a b (by simpa using h)

theorem lorAdd128 (a b : Nat) (h : a < 128) : a ||| b * 128 = a + b * 128 := by
  simpa using lor_mul_pow_eq_add 7 a b (by simpa using h)

theorem and1eq (x : Nat) : x &&& 1 = x % 2 := by
  simpa using Nat.and_pow_two_sub_one_eq_mod x 1

theorem and3eq (x : Nat) : x &&& 3 = x % 4 := by
  simpa using Nat.and_pow_two_sub_one_eq_mod x 2

theorem and7eq (x : Nat) : x &&& 7 = x % 8 := by
  simpa using Nat.and_pow_two_sub_one_eq_mod x 3

theorem and15eq (x : Nat) : x &&& 15 = x % 16 := by
  simpa using Nat.and_pow_two_sub_one_eq_mod x 4

theorem and31eq (x : Nat) : x &&& 31 = x % 32 := by
  simpa using Nat.and_pow_two_sub_one_eq_mod x 5

theorem shr1 (x : Nat) : x >>> 1 = x / 2 := Nat.shiftRight_eq_div_pow x 1

theorem shr2 (x : Nat) : x >>> 2 = x / 4 := Nat.shiftRight_eq_div_pow x 2

theorem shr3 (x : Nat) : x >>> 3 = x / 8 := Nat.shiftRight_eq_div_pow x 3

theorem shr4 (x : Nat) : x >>> 4 = x / 16 := Nat.shiftRight_eq_div_pow x 4

theorem shr5 (x : Nat) : x >>> 5 = x / 32 := Nat.shiftRight_eq_div_pow x 5

theorem shr6 (x : Nat) : x >>> 6 = x / 64 := Nat.shiftRight_eq_div_pow x 6

theorem shr7 (x : Nat) : x >>> 7 = x / 128 := Nat.shiftRight_eq_div_pow x 7

theorem shl1 (x : Nat) : x <<< 1 = x * 2 := Nat.shiftLeft_eq x 1

theorem shl2 (x : Nat) : x <<< 2 = x * 4 := Nat.shiftLeft_eq x 2

theorem shl3 (x : Nat) : x <<< 3 = x * 8 := Nat.shiftLeft_eq x 3

theorem shl4 (x : Nat) : x <<< 4 = x * 16 := Nat.shiftLeft_eq x 4

theorem shl5 (x : Nat) : x <<< 5 = x * 32 := Nat.shiftLeft_eq x 5

theorem shl8_4 (x : Nat) : shl8 x 4 = x % 16 * 16 := by
  have h : shl8 x 4 = x * 16 % (16 * 16) := by rw [shl8, Nat.shiftLeft_eq]
  rw [h, Nat.mul_mod_mul_right]

theorem shl8_5 (x : Nat) : shl8 x 5 = x % 8 * 32 := by
  have h : shl8 x 5 = x * 32 % (8 * 32) := by rw [shl8, Nat.shiftLeft_eq]
  rw [h, Nat.mul_mod_mul_right]

theorem shl8_6 (x : Nat) : shl8 x 6 = x % 4 * 64 := by
  have h : shl8 x 6 = x * 64 % (4 * 64) := by rw [shl8, Nat.shiftLeft_eq]
  rw [h, Nat.mul_mod_mul_right]

theorem shl8_7 (x : Nat) : shl8 x 7 = x % 2 * 128 := by
  have h : shl8 x 7 = x * 128 % (2 * 128) := by rw [shl8, Nat.shiftLeft_eq]
  rw [h, Nat.mul_mod_mul_right]

theorem and4shr2 : ∀ x < 8, (x &&& 4) >>> 2 = x / 4 := by decide

theorem and6shr1 : ∀ x < 8, (x &&& 6) >>> 1 = x / 2 := by decide

theorem and24shr3 : ∀ x < 32, (x &&& 24) >>> 3 = x / 8 := by decide

theorem and30shr1 : ∀ x < 32, (x &&& 30) >>> 1 = x / 2 := by decide

theorem and16shr4 : ∀ x < 32, (x &&& 16) >>> 4 = x / 16 := by decide

theorem and28shr2 : ∀ x < 32, (x &&& 28) >>> 2 = x / 4 := by decide

theorem p3b0_arith (s0 s1 s2 : Nat) (h0 : s0 < 8) (h1 : s1 < 8) :
    (s0 &&& 7) ||| ((s1 &&& 7) <<< 3) ||| shl8 s2 6 = s0 + s1 * 8 + s2 % 4 * 64 := by
  rw [and7eq, and7eq, shl3, shl8_6, Nat.mod_eq_of_lt h0, Nat.mod_eq_of_lt h1,
      lorAdd8 _ _ (by omega), lorAdd64 _ _ (by omega)]

theorem p3b1_arith (s2 s3 s4 s5 : Nat) (h2 : s2 < 8) (h3 : s3 < 8) (h4 : s4 < 8) :
    ((s2 &&& 4) >>> 2) ||| ((s3 &&& 7) <<< 1) ||| ((s4 &&& 7) <<< 4) ||| shl8 s5 7 =
      s2 / 4 + s3 * 2 + s4 * 16 + s5 % 2 * 128 := by
  rw [and4shr2 s2 h2, and7eq, and7eq, shl1, shl4, shl8_7,
      Nat.mod_eq_of_lt h3, Nat.mod_eq_of_lt h4,
      lorAdd2 _ _ (by omega), lorAdd16 _ _ (by omega), lorAdd128 _ _ (by omega)]

theorem p3b2_arith (s5 s6 s7 : Nat) (h5 : s5 < 8) (h6 : s6 < 8) (h7 : s7 < 8) :
    ((s5 &&& 6) >>> 1) ||| ((s6 &&& 7) <<< 2) ||| ((s7 &&& 7) <<< 5) =
      s5 / 2 + s6 * 4 + s7 * 32 := by
  rw [and6shr1 s5 h5, and7eq, and7eq, shl2, shl5,
      Nat.mod_eq_of_lt h6, Nat.mod_eq_of_lt h7,
      lorAdd4 _ _ (by omega), lorAdd32 _ _ (by omega)]

theorem unpack3_stride (s0 s1 s2 s3 s4 s5 s6 s7 : Nat) (rest : List Nat)
    (h0 : s0 < 8) (h1 : s1 < 8) (h2 : s2 < 8) (h3 : s3 < 8)
    (h4 : s4 < 8) (h5 : s5 < 8) (h6 : s6 < 8) (h7 : s7 < 8) :
    unpack3 (pack3 (s0 :: s1 :: s2 :: s3 :: s4 :: s5 :: s6 :: s7 :: rest)) =
      s0 :: s1 :: s2 :: s3 :: s4 :: s5 :: s6 :: s7 :: unpack3 (pack3 rest) := by
  simp only [pack3, unpack3, List.cons.injEq]
  rw [p3b0_arith s0 s1 s2 h0 h1, p3b1_arith s2 s3 s4 s5 h2 h3 h4,
      p3b2_arith s5 s6 s7 h5 h6 h7]
  refine ⟨?_, ?_, ?_, ?_, ?_, ?_, ?_, ?_, trivial⟩
  · rw [and7eq]
    omega
  · rw [shr3, and7eq]
    omega
  · rw [shr6, and1eq, shl2, lorAdd4 _ _ (by omega)]
    omega
  · rw [shr1, and7eq]
    omega
  · rw [shr4, and7eq]
    omega
  · rw [shr7, and3eq, shl1, lorAdd2 _ _ (by omega)]
    omega
  · rw [shr2, and7eq]
    omega
  · rw [shr5]
    omega

theorem unpack3_pack3 :
    ∀ xs : List Nat, (∀ x ∈ xs, x < 8) → (unpack3 (pack3 xs)).take xs.length = xs := by
  intro xs
  induction xs using pack3.induct with
  | case1 s0 s1 s2 s3 s4 s5 s6 s7 rest ih =>
      intro h
      rw [unpack3_stride s0 s1 s2 s3 s4 s5 s6 s7 rest
            (h s0 (by simp)) (h s1 (by simp)) (h s2 (by simp)) (h s3 (by simp))
            (h s4 (by simp)) (h s5 (by simp)) (h s6 (by simp)) (h s7 (by simp))]
      simp only [List.length_cons, List.take_succ_cons]
      rw [ih fun x hx => h x (by simp [hx])]
  | case2 t0 t1 t2 t3 t4 t5 t6 =>
      intro h
      have h0 := h t0 (by simp)
      have h1 := h t1 (by simp)
      have h2 := h t2 (by simp)
      have h3 := h t3 (by simp)
      have h4 := h t4 (by simp)
      have h5 := h t5 (by simp)
      have h6 := h t6 (by simp)
      have hb2 : ((t5 &&& 6) >>> 1) ||| ((t6 &&& 7) <<< 2) = t5 / 2 + t6 * 4 := by
        rw [and6shr1 t5 h5, and7eq, shl2, Nat.mod_eq_of_lt h6, lorAdd4 _ _ (by omega)]
      simp only [pack3, unpack3, List.length_cons, List.length_nil, List.take_succ_cons,
        List.take_zero, List.cons.injEq]
      rw [p3b0_arith t0 t1 t2 h0 h1, p3b1_arith t2 t3 t4 t5 h2 h3 h4, hb2]
      refine ⟨?_, ?_, ?_, ?_, ?_, ?_, ?_, trivial⟩
      · rw [and7eq]
        omega
      · rw [shr3, and7eq]
        omega
      · rw [shr6, and1eq, shl2, lorAdd4 _ _ (by omega)]
        omega
      · rw [shr1, and7eq]
        omega
      · rw [shr4, and7eq]
        omega
      · rw [shr7, and3eq, shl1, lorAdd2 _ _ (by omega)]
        omega
      · rw [shr2, and7eq]
        omega
  | case3 t0 t1 t2 t3 t4 t5 =>
      intro h
      have h0 := h t0 (by simp)
      have h1 := h t1 (by simp)
      have h2 := h t2 (by simp)
      have h3 := h t3 (by simp)
      have h4 := h t4 (by simp)
      have h5 := h t5 (by simp)
      have hb2 : (t5 &&& 6) >>> 1 = t5 / 2 := and6shr1 t5 h5
      simp only [pack3, unpack3, List.length_cons, List.length_nil, List.take_succ_cons,
        List.take_zero, List.cons.injEq]
      rw [p3b0_arith t0 t1 t2 h0 h1, p3b1_arith t2 t3 t4 t5 h2 h3 h4, hb2]
      refine ⟨?_, ?_, ?_, ?_, ?_, ?_, trivial⟩
      · rw [and7eq]
        omega
      · rw [shr3, and7eq]
        omega
      · rw [shr6, and1eq, shl2, lorAdd4 _ _ (by omega)]
        omega
      · rw [shr1, and7eq]
        omega
      · rw [shr4, and7eq]
        omega
      · rw [shr7, and3eq, shl1, lorAdd2 _ _ (by omega)]
        omega
  | case4 t0 t1 t2 t3 t4 =>
      intro h
      have h0 := h t0 (by simp)
      have h1 := h t1 (by simp)
      have h2 := h t2 (by simp)
      have h3 := h t3 (by simp)
      have h4 := h t4 (by simp)
      have hb1 : ((t2 &&& 4) >>> 2) ||| ((t3 &&& 7) <<< 1) ||| ((t4 &&& 7) <<< 4) =
          t2 / 4 + t3 * 2 + t4 * 16 := by
        rw [and4shr2 t2 h2, and7eq, and7eq, shl1, shl4,
          Nat.mod_eq_of_lt h3, Nat.mod_eq_of_lt h4,
          lorAdd2 _ _ (by omega), lorAdd16 _ _ (by omega)]
      simp only [pack3, unpack3, List.length_cons, List.length_nil, List.take_succ_cons,
        List.take_zero, List.cons.injEq]
      rw [p3b0_arith t0 t1 t2 h0 h1, hb1]
      refine ⟨?_, ?_, ?_, ?_, ?_, trivial⟩
      · rw [and7eq]
        omega
      · rw [shr3, and7eq]
        omega
      · rw [shr6, and1eq, shl2, lorAdd4 _ _ (by omega)]
        omega
      · rw [shr1, and7eq]
        omega
      · rw [shr4, and7eq]
        omega
  | case5 t0 t1 t2 t3 =>
      intro h
      have h0 := h t0 (by simp)
      have h1 := h t1 (by simp)
      have h2 := h t2 (by simp)
      have h3 := h t3 (by simp)
      have hb1 : ((t2 &&& 4) >>> 2) ||| ((t3 &&& 7) <<< 1) = t2 / 4 + t3 * 2 := by
        rw [and4shr2 t2 h2, and7eq, shl1, Nat.mod_eq_of_lt h3, lorAdd2 _ _ (by omega)]
      simp only [pack3, unpack3, List.length_cons, List.length_nil, List.take_succ_cons,
        List.take_zero, List.cons.injEq]
      rw [p3b0_arith t0 t1 t2 h0 h1, hb1]
      refine ⟨?_, ?_, ?_, ?_, trivial⟩
      · rw [and7eq]
        omega
      · rw [shr3, and7eq]
        omega
      · rw [shr6, and1eq, shl2, lorAdd4 _ _ (by omega)]
        omega
      · rw [shr1, and7eq]
        omega
  | case6 t0 t1 t2 =>
      intro h
      have h0 := h t0 (by simp)
      have h1 := h t1 (by simp)
      have h2 := h t2 (by simp)
      have hb1 : (t2 &&& 4) >>> 2 = t2 / 4 := and4shr2 t2 h2
      simp only [pack3, unpack3, List.length_cons, List.length_nil, List.take_succ_cons,
        List.take_zero, List.cons.injEq]
      rw [p3b0_arith t0 t1 t2 h0 h1, hb1]
      refine ⟨?_, ?_, ?_, trivial⟩
      · rw [and7eq]
        omega
      · rw [shr3, and7eq]
        omega
      · rw [shr6, and1eq, shl2, lorAdd4 _ _ (by omega)]
        omega
  | case7 t0 t1 =>
      intro h
      have h0 := h t0 (by simp)
      have h1 := h t1 (by simp)
      have hb0 : (t0 &&& 7) ||| ((t1 &&& 7) <<< 3) = t0 + t1 * 8 := by
        rw [and7eq, and7eq, shl3, Nat.mod_eq_of_lt h0, Nat.mod_eq_of_lt h1,
          lorAdd8 _ _ h0]
      simp only [pack3, unpack3, List.length_cons, List.length_nil, List.take_succ_cons,
        List.take_zero, List.cons.injEq]
      rw [hb0]
      refine ⟨?_, ?_, trivial⟩
      · rw [and7eq]
        omega
      · rw [shr3, and7eq]
        omega
  | case8 t0 =>
      intro h
      have h0 := h t0 (by simp)
      simp only [pack3, unpack3, List.length_cons, List.length_nil, List.take_succ_cons,
        List.take_zero, List.cons.injEq]
      refine ⟨?_, trivial⟩
      rw [and7eq, and7eq]
      omega
  | case9 =>
      intro h
      simp [pack3, unpack3]

theorem p5b0_arith (c0 c1 : Nat) (h0 : c0 < 32) :
    (c0 &&& 31) ||| shl8 c1 5 = c0 + c1 % 8 * 32 := by
  rw [and31eq, shl8_5, Nat.mod_eq_of_lt h0, lorAdd32 _ _ h0]

theorem p5b1_arith (c1 c2 c3 : Nat) (h1 : c1 < 32) (h2 : c2 < 32) :
    ((c1 &&& 24) >>> 3) ||| ((c2 &&& 31) <<< 2) ||| shl8 c3 7 =
      c1 / 8 + c2 * 4 + c3 % 2 * 128 := by
  rw [and24shr3 c1 h1, and31eq, shl2, shl8_7, Nat.mod_eq_of_lt h2,
    lorAdd4 _ _ (by omega), lorAdd128 _ _ (by omega)]

theorem p5b2_arith (c3 c4 : Nat) (h3 : c3 < 32) :
    ((c3 &&& 30) >>> 1) ||| shl8 c4 4 = c3 / 2 + c4 % 16 * 16 := by
  rw [and30shr1 c3 h3, shl8_4, lorAdd16 _ _ (by omega)]

theorem p5b3_arith (c4 c5 c6 : Nat) (h4 : c4 < 32) (h5 : c5 < 32) :
    ((c4 &&& 16) >>> 4) ||| ((c5 &&& 31) <<< 1) ||| shl8 c6 6 =
      c4 / 16 + c5 * 2 + c6 % 4 * 64 := by
  rw [and16shr4 c4 h4, and31eq, shl1, shl8_6, Nat.mod_eq_of_lt h5,
    lorAdd2 _ _ (by omega), lorAdd64 _ _ (by omega)]

theorem p5b4_arith (c6 c7 : Nat) (h6 : c6 < 32) (h7 : c7 < 32) :
    ((c6 &&& 28) >>> 2) ||| ((c7 &&& 31) <<< 3) = c6 / 4 + c7 * 8 := by
  rw [and28shr2 c6 h6, and31eq, shl3, Nat.mod_eq_of_lt h7, lorAdd8 _ _ (by omega)]

theorem unpack5_stride (c0 c1 c2 c3 c4 c5 c6 c7 : Nat) (rest : List Nat)
    (h0 : c0 < 32) (h1 : c1 < 32) (h2 : c2 < 32) (h3 : c3 < 32)
    (h4 : c4 < 32) (h5 : c5 < 32) (h6 : c6 < 32) (h7 : c7 < 32) :
    unpack5 (pack5 (c0 :: c1 :: c2 :: c3 :: c4 :: c5 :: c6 :: c7 :: rest)) =
      c0 :: c1 :: c2 :: c3 :: c4 :: c5 :: c6 :: c7 :: unpack5 (pack5 rest) := by
  simp only [pack5, unpack5, List.cons.injEq]
  rw [p5b0_arith c0 c1 h0, p5b1_arith c1 c2 c3 h1 h2, p5b2_arith c3 c4 h3,
    p5b3_arith c4 c5 c6 h4 h5, p5b4_arith c6 c7 h6 h7]
  refine ⟨?_, ?_, ?_, ?_, ?_, ?_, ?_, ?_, trivial⟩
  · rw [and31eq]
    omega
  · rw [shr5, and3eq, shl3, lorAdd8 _ _ (by omega)]
    omega
  · rw [shr2, and31eq]
    omega
  · rw [shr7, and15eq, shl1, lorAdd2 _ _ (by omega)]
    omega
  · rw [shr4, and1eq, shl4, lorAdd16 _ _ (by omega)]
    omega
  · rw [shr1, and31eq]
    omega
  · rw [shr6, and7eq, shl2, lorAdd4 _ _ (by omega)]
    omega
  · rw [shr3]
    omega

theorem unpack5_pack5 :
    ∀ ys : List Nat, (∀ y ∈ ys, y < 32) → (unpack5 (pack5 ys)).take ys.length = ys := by
  intro ys
  induction ys using pack5.induct with
  | case1 c0 c1 c2 c3 c4 c5 c6 c7 rest ih =>
      intro h
      rw [unpack5_stride c0 c1 c2 c3 c4 c5 c6 c7 rest
            (h c0 (by simp)) (h c1 (by simp)) (h c2 (by simp)) (h c3 (by simp))
            (h c4 (by simp)) (h c5 (by simp)) (h c6 (by simp)) (h c7 (by simp))]
      simp only [List.length_cons, List.take_succ_cons]
      rw [ih fun y hy => h y (by simp [hy])]
  | case2 t0 t1 t2 t3 t4 t5 t6 =>
      intro h
      have h0 := h t0 (by simp)
      have h1 := h t1 (by simp)
      have h2 := h t2 (by simp)
      have h3 := h t3 (by simp)
      have h4 := h t4 (by simp)
      have h5 := h t5 (by simp)
      have h6 := h t6 (by simp)
      have hb4 : (t6 &&& 28) >>> 2 = t6 / 4 := and28shr2 t6 h6
      simp only [pack5, unpack5, List.length_cons, List.length_nil, List.take_succ_cons,
        List.take_zero, List.cons.injEq]
      rw [p5b0_arith t0 t1 h0, p5b1_arith t1 t2 t3 h1 h2, p5b2_arith t3 t4 h3,
        p5b3_arith t4 t5 t6 h4 h5, hb4]
      refine ⟨?_, ?_, ?_, ?_, ?_, ?_, ?_, trivial⟩
      · rw [and31eq]
        omega
      · rw [shr5, and3eq, shl3, lorAdd8 _ _ (by omega)]
        omega
      · rw [shr2, and31eq]
        omega
      · rw [shr7, and15eq, shl1, lorAdd2 _ _ (by omega)]
        omega
      · rw [shr4, and1eq, shl4, lorAdd16 _ _ (by omega)]
        omega
      · rw [shr1, and31eq]
        omega
      · rw [shr6, and7eq, shl2, lorAdd4 _ _ (by omega)]
        omega
  | case3 t0 t1 t2 t3 t4 t5 =>
      intro h
      have h0 := h t0 (by simp)
      have h1 := h t1 (by simp)
      have h2 := h t2 (by simp)
      have h3 := h t3 (by simp)
      have h4 := h t4 (by simp)
      have h5 := h t5 (by simp)
      have hb3 : ((t4 &&& 16) >>> 4) ||| ((t5 &&& 31) <<< 1) = t4 / 16 + t5 * 2 := by
        rw [and16shr4 t4 h4, and31eq, shl1, Nat.mod_eq_of_lt h5, lorAdd2 _ _ (by omega)]
      simp only [pack5, unpack5, List.length_cons, List.length_nil, List.take_succ_cons,
        List.take_zero, List.cons.injEq]
      rw [p5b0_arith t0 t1 h0, p5b1_arith t1 t2 t3 h1 h2, p5b2_arith t3 t4 h3, hb3]
      refine ⟨?_, ?_, ?_, ?_, ?_, ?_, trivial⟩
      · rw [and31eq]
        omega
      · rw [shr5, and3eq, shl3, lorAdd8 _ _ (by omega)]
        omega
      · rw [shr2, and31eq]
        omega
      · rw [shr7, and15eq, shl1, lorAdd2 _ _ (by omega)]
        omega
      · rw [shr4, and1eq, shl4, lorAdd16 _ _ (by omega)]
        omega
      · rw [shr1, and31eq]
        omega
  | case4 t0 t1 t2 t3 t4 =>
      intro h
      have h0 := h t0 (by simp)
      have h1 := h t1 (by simp)
      have h2 := h t2 (by simp)
      have h3 := h t3 (by simp)
      have h4 := h t4 (by simp)
      have hb3 : (t4 &&& 16) >>> 4 = t4 / 16 := and16shr4 t4 h4
      simp only [pack5, unpack5, List.length_cons, List.length_nil, List.take_succ_cons,
        List.take_zero, List.cons.injEq]
      rw [p5b0_arith t0 t1 h0, p5b1_arith t1 t2 t3 h1 h2, p5b2_arith t3 t4 h3, hb3]
      refine ⟨?_, ?_, ?_, ?_, ?_, trivial⟩
      · rw [and31eq]
        omega
      · rw [shr5, and3eq, shl3, lorAdd8 _ _ (by omega)]
        omega
      · rw [shr2, and31eq]
        omega
      · rw [shr7, and15eq, shl1, lorAdd2 _ _ (by omega)]
        omega
      · rw [shr4, and1eq, shl4, lorAdd16 _ _ (by omega)]
        omega
  | case5 t0 t1 t2 t3 =>
      intro h
      have h0 := h t0 (by simp)
      have h1 := h t1 (by simp)
      have h2 := h t2 (by simp)
      have h3 := h t3 (by simp)
      have hb2 : (t3 &&& 30) >>> 1 = t3 / 2 := and30shr1 t3 h3
      simp only [pack5, unpack5, List.length_cons, List.length_nil, List.take_succ_cons,
        List.take_zero, List.cons.injEq]
      rw [p5b0_arith t0 t1 h0, p5b1_arith t1 t2 t3 h1 h2, hb2]
      refine ⟨?_, ?_, ?_, ?_, trivial⟩
      · rw [and31eq]
        omega
      · rw [shr5, and3eq, shl3, lorAdd8 _ _ (by omega)]
        omega
      · rw [shr2, and31eq]
        omega
      · rw [shr7, and15eq, shl1, lorAdd2 _ _ (by omega)]
        omega
  | case6 t0 t1 t2 =>
      intro h
      have h0 := h t0 (by simp)
      have h1 := h t1 (by simp)
      have h2 := h t2 (by simp)
      have hb1 : ((t1 &&& 24) >>> 3) ||| ((t2 &&& 31) <<< 2) = t1 / 8 + t2 * 4 := by
        rw [and24shr3 t1 h1, and31eq, shl2, Nat.mod_eq_of_lt h2, lorAdd4 _ _ (by omega)]
      simp only [pack5, unpack5, List.length_cons, List.length_nil, List.take_succ_cons,
        List.take_zero, List.cons.injEq]
      rw [p5b0_arith t0 t1 h0, hb1]
      refine ⟨?_, ?_, ?_, trivial⟩
      · rw [and31eq]
        omega
      · rw [shr5, and3eq, shl3, lorAdd8 _ _ (by omega)]
        omega
      · rw [shr2, and31eq]
        omega
  | case7 t0 t1 =>
      intro h
      have h0 := h t0 (by simp)
      have h1 := h t1 (by simp)
      have hb1 : (t1 &&& 24) >>> 3 = t1 / 8 := and24shr3 t1 h1
      simp only [pack5, unpack5, List.length_cons, List.length_nil, List.take_succ_cons,
        List.take_zero, List.cons.injEq]
      rw [p5b0_arith t0 t1 h0, hb1]
      refine ⟨?_, ?_, trivial⟩
      · rw [and31eq]
        omega
      · rw [shr5, and3eq, shl3, lorAdd8 _ _ (by omega)]
        omega
  | case8 t0 =>
      intro h
      have h0 := h t0 (by simp)
      simp only [pack5, unpack5, List.length_cons, List.length_nil, List.take_succ_cons,
        List.take_zero, List.cons.injEq]
      refine ⟨?_, trivial⟩
      rw [and31eq, and31eq]
      omega
  | case9 =>
      intro h
      simp [pack5, unpack5]

theorem pack3_length : ∀ xs : List Nat, (pack3 xs).length = pack3_size xs.length := by
  intro xs
  induction xs using pack3.induct with
  | case1 s0 s1 s2 s3 s4 s5 s6 s7 rest ih =>
      simp only [pack3, pack3_size, List.length_cons] at *
      omega
  | case2 t0 t1 t2 t3 t4 t5 t6 => simp [pack3, pack3_size]
  | case3 t0 t1 t2 t3 t4 t5 => simp [pack3, pack3_size]
  | case4 t0 t1 t2 t3 t4 => simp [pack3, pack3_size]
  | case5 t0 t1 t2 t3 => simp [pack3, pack3_size]
  | case6 t0 t1 t2 => simp [pack3, pack3_size]
  | case7 t0 t1 => simp [pack3, pack3_size]
  | case8 t0 => simp [pack3, pack3_size]
  | case9 => simp [pack3, pack3_size]

theorem pack5_length :
    ∀ ys : List Nat, (pack5 ys).length = 5 * (ys.length / 8) + (ys.length % 8 * 5 + 7) / 8 := by
  intro ys
  induction ys using pack5.induct with
  | case1 c0 c1 c2 c3 c4 c5 c6 c7 rest ih =>
      simp only [pack5, List.length_cons] at *
      omega
  | case2 t0 t1 t2 t3 t4 t5 t6 => simp [pack5]
  | case3 t0 t1 t2 t3 t4 t5 => simp [pack5]
  | case4 t0 t1 t2 t3 t4 => simp [pack5]
  | case5 t0 t1 t2 t3 => simp [pack5]
  | case6 t0 t1 t2 => simp [pack5]
  | case7 t0 t1 => simp [pack5]
  | case8 t0 => simp [pack5]
  | case9 => simp [pack5]

/-! ### Scan lemmas -/

theorem scan_shift (L : Nat) :
    ∀ (spans : List Nat) (idx e x : Nat),
      scanSpans L spans idx e x = (scanSpans L spans 0 e x).map fun p => (p.1 + idx, p.2) := by
  intro spans
  induction spans with
  | nil => intro idx e x; simp [scanSpans]
  | cons s rest ih =>
      intro idx e x
      simp only [scanSpans]
      split_ifs with hs0 hL hs7
      · simp
      · rw [ih (idx + 1), ih 1, Option.map_map]
        congr 1
        funext p
        simp [Prod.ext_iff]
        omega
      · rw [ih (idx + 1), ih 1, Option.map_map]
        congr 1
        funext p
        simp [Prod.ext_iff]
        omega
      · rw [ih (idx + 1), ih 1, Option.map_map]
        congr 1
        funext p
        simp [Prod.ext_iff]
        omega

theorem scan_none_iff (L : Nat) :
    ∀ (spans : List Nat) (idx e x : Nat),
      scanSpans L spans idx e x = none ↔ L ≤ e ∨ spans.count 0 < L - e := by
  intro spans
  induction spans with
  | nil =>
      intro idx e x
      simp [scanSpans, List.count_nil]
      omega
  | cons s rest ih =>
      intro idx e x
      simp only [scanSpans]
      split_ifs with hs0 hL hs7
      · simp [List.count_cons, hs0]
        omega
      · rw [ih]
        simp [List.count_cons, hs0]
        omega
      · rw [ih]
        simp [List.count_cons, hs0]
      · rw [ih]
        simp [List.count_cons, hs0]

theorem scan_some_spec (L : Nat) :
    ∀ (spans : List Nat) (e x i c : Nat),
      scanSpans L spans 0 e x = some (i, c) →
        i < spans.length ∧ spans[i]? = some 0 ∧
          c = x + (spans.take (i + 1)).count 7 := by
  intro spans
  induction spans with
  | nil => intro e x i c h; simp [scanSpans] at h
  | cons s rest ih =>
      intro e x i c h
      simp only [scanSpans] at h
      split_ifs at h with hs0 hL hs7
      · simp only [Option.some.injEq, Prod.mk.injEq] at h
        obtain ⟨rfl, rfl⟩ := h
        subst hs0
        refine ⟨by simp, by simp, ?_⟩
        simp [List.count_cons]
      · rw [scan_shift] at h
        cases hscan : scanSpans L rest 0 (e + 1) x with
        | none => rw [hscan] at h; simp at h
        | some p =>
            rw [hscan] at h
            simp only [Option.map_some', Option.some.injEq, Prod.mk.injEq] at h
            obtain ⟨hi, hc⟩ := h
            obtain ⟨h1, h2, h3⟩ := ih (e + 1) x p.1 p.2 (by rw [hscan])
            subst hs0
            refine ⟨by simp; omega, ?_, ?_⟩
            · rw [← hi]
              simpa using h2
            · rw [← hi, ← hc]
              have : (0 :: rest).take (p.1 + 1 + 1) = 0 :: rest.take (p.1 + 1) := rfl
              rw [this, h3]
              simp [List.count_cons]
      · rw [scan_shift] at h
        cases hscan : scanSpans L rest 0 e (x + 1) with
        | none => rw [hscan] at h; simp at h
        | some p =>
            rw [hscan] at h
            simp only [Option.map_some', Option.some.injEq, Prod.mk.injEq] at h
            obtain ⟨hi, hc⟩ := h
            obtain ⟨h1, h2, h3⟩ := ih e (x + 1) p.1 p.2 (by rw [hscan])
            subst hs7
            refine ⟨by simp; omega, ?_, ?_⟩
            · rw [← hi]
              simpa using h2
            · rw [← hi, ← hc]
              have : (7 :: rest).take (p.1 + 1 + 1) = 7 :: rest.take (p.1 + 1) := rfl
              rw [this, h3]
              simp [List.count_cons]
              omega
      · rw [scan_shift] at h
        cases hscan : scanSpans L rest 0 e x with
        | none => rw [hscan] at h; simp at h
        | some p =>
            rw [hscan] at h
            simp only [Option.map_some', Option.some.injEq, Prod.mk.injEq] at h
            obtain ⟨hi, hc⟩ := h
            obtain ⟨h1, h2, h3⟩ := ih e x p.1 p.2 (by rw [hscan])
            refine ⟨by simp; omega, ?_, ?_⟩
            · rw [← hi]
              simpa using h2
            · rw [← hi, ← hc]
              have : (s :: rest).take (p.1 + 1 + 1) = s :: rest.take (p.1 + 1) := rfl
              rw [this, h3]
              simp [List.count_cons, hs7]

/-! ### Replay lemmas -/

theorem replay_ends_zero :
    ∀ (spans : List Nat), (∀ (exts : List Nat) (b p f : Nat) (out : List Nat),
      spans.getLast? = some 0 →
      replayR spans exts b p f out = none ∨
        ∃ res, replayR spans exts b p f out = some res ∧ res.2 = 0) := by
  intro spans
  induction spans with
  | nil => intro exts b p f out h; simp at h
  | cons s rest ih =>
      intro exts b p f out h
      simp only [replayR]
      split_ifs with hs0 hs7
      · rcases rest with _ | ⟨s2, rest2⟩
        · right
          exact ⟨_, rfl, rfl⟩
        · exact ih _ _ _ _ _ (by rw [← h, List.getLast?_cons_cons])
      · rcases rest with _ | ⟨s2, rest2⟩
        · exact absurd (by simpa using h) hs0
        · cases exts with
          | nil => exact Or.inl rfl
          | cons e exts2 => exact ih _ _ _ _ _ (by rw [← h, List.getLast?_cons_cons])
      · rcases rest with _ | ⟨s2, rest2⟩
        · exact absurd (by simpa using h) hs0
        · exact ih _ _ _ _ _ (by rw [← h, List.getLast?_cons_cons])

theorem decompress_ne_incomplete (bytes : List Nat) :
    decompress_fingerprint bytes ≠ some (.error .IncompleteStride) := by
  simp only [decompress_fingerprint]
  by_cases h4 : bytes.length < 4
  · simp [h4]
  · rw [if_neg h4]
    by_cases hg : bytes.length - 4 < parseCount bytes
    · simp [hg]
    · rw [if_neg hg]
      split
      · simp
      · next i c hscan =>
          obtain ⟨h1, h2, h3⟩ := scan_some_spec _ _ 0 0 i c hscan
          have hresize : resize (unpack3 (bytes.drop 4)) (i + 1) 0 =
              (unpack3 (bytes.drop 4)).take (i + 1) := by
            unfold resize
            have hz : i + 1 - (unpack3 (bytes.drop 4)).length = 0 := by omega
            rw [hz]
            simp
          have hlast : ((unpack3 (bytes.drop 4)).take (i + 1)).getLast? = some 0 := by
            rw [List.getLast?_eq_getElem?]
            have hlen : ((unpack3 (bytes.drop 4)).take (i + 1)).length = i + 1 := by
              simp [List.length_take]
              omega
            rw [hlen]
            simp only [Nat.add_sub_cancel, List.getElem?_take]
            rw [if_pos (by omega)]
            exact h2
          rw [hresize]
          by_cases hm :
              (unpack5 (bytes.drop (4 + pack3_size ((unpack3 (bytes.drop 4)).take (i + 1)).length))).length < c
          · rw [if_pos hm]
            simp
          · rw [if_neg hm]
            split
            · simp
            · next out fp heq =>
                rcases replay_ends_zero _ _ 0 0 0 [] hlast with hnone | ⟨res, hres, hzero⟩
                · rw [heq] at hnone
                  simp at hnone
                · rw [heq] at hres
                  simp only [Option.some.injEq] at hres
                  have hfp : fp = 0 := by
                    rw [← hres] at hzero
                    exact hzero
                  rw [if_neg (by simp [hfp])]
                  simp

theorem post_scan_ne_ueod (spans2 exts : List Nat) (c algo : Nat) :
    (if exts.length < c then
        some (Except.error (DecompressError.MissingExtension c exts.length))
      else
        match replayR spans2 exts 0 0 0 [] with
        | none => none
        | some (out, fp) =>
            if fp ≠ 0 then some (.error .IncompleteStride)
            else some (.ok (algo, out))) ≠
      some (.error .UnexpectedEndOfData) := by
  by_cases hm : exts.length < c
  · simp [hm]
  · rw [if_neg hm]
    split
    · simp
    · split_ifs
      · simp
      · simp

theorem decompress_ueod_iff (bytes : List Nat) (h4 : 4 ≤ bytes.length) :
    decompress_fingerprint bytes = some (.error .UnexpectedEndOfData) ↔
      bytes.length - 4 < parseCount bytes ∨ parseCount bytes = 0 ∨
        (unpack3 (bytes.drop 4)).count 0 < parseCount bytes := by
  simp only [decompress_fingerprint]
  rw [if_neg (by omega)]
  by_cases hg : bytes.length - 4 < parseCount bytes
  · rw [if_pos hg]
    simp [hg]
  · rw [if_neg hg]
    cases hscan : scanSpans (parseCount bytes) (unpack3 (bytes.drop 4)) 0 0 0 with
    | none =>
        simp only [hscan]
        have hcond := (scan_none_iff (parseCount bytes) (unpack3 (bytes.drop 4)) 0 0 0).mp hscan
        simp only [true_iff, eq_self_iff_true]
        omega
    | some p =>
        obtain ⟨i, c⟩ := p
        simp only [hscan]
        have hnn : scanSpans (parseCount bytes) (unpack3 (bytes.drop 4)) 0 0 0 ≠ none := by
          rw [hscan]
          simp
        have hcond := (not_congr (scan_none_iff (parseCount bytes) (unpack3 (bytes.drop 4)) 0 0 0)).mp hnn
        constructor
        · intro hL
          exact absurd hL (post_scan_ne_ueod _ _ _ _)
        · intro hR
          omega

theorem decompress_missing_ext (bytes : List Nat) (i c : Nat)
    (h4 : ¬bytes.length < 4)
    (hg : ¬bytes.length - 4 < parseCount bytes)
    (hscan : scanSpans (parseCount bytes) (unpack3 (bytes.drop 4)) 0 0 0 = some (i, c))
    (hmiss : (unpack5 (bytes.drop (4 + pack3_size (i + 1)))).length < c) :
    decompress_fingerprint bytes =
      some (.error (.MissingExtension c
        (unpack5 (bytes.drop (4 + pack3_size (i + 1)))).length)) ∧
      c = ((unpack3 (bytes.drop 4)).take (i + 1)).count 7 := by
  obtain ⟨h1, h2, h3⟩ := scan_some_spec _ _ 0 0 i c hscan
  constructor
  · simp only [decompress_fingerprint]
    rw [if_neg h4, if_neg hg]
    simp only [hscan]
    have hrl : (resize (unpack3 (bytes.drop 4)) (i + 1) 0).length = i + 1 := by
      unfold resize
      simp [List.length_take]
      omega
    rw [hrl, if_pos hmiss]
  · omega

/-! ### Compressor refinement lemmas -/

theorem map_add_add (l : List Nat) (a b : Nat) :
    (l.map (· + a)).map (· + b) = l.map (· + (a + b)) := by
  rw [List.map_map]
  apply List.map_congr_left
  intro x _
  simp [Function.comp, Nat.add_assoc]

theorem natBits_zero : natBits 0 = [] := by
  rw [natBits]
  simp

theorem natBits_eq (v : Nat) (hv : v ≠ 0) :
    natBits v = (if v % 2 = 1 then [0] else []) ++ (natBits (v / 2)).map (· + 1) := by
  conv_lhs => rw [natBits]
  simp [hv]

theorem range_filterMap_testBit :
    ∀ (n v : Nat), v < 2 ^ n →
      ((List.range n).filterMap fun k => if v.testBit k then some (k + 1) else none) =
        (natBits v).map (· + 1) := by
  intro n
  induction n with
  | zero =>
      intro v hv
      have hv0 : v = 0 := by simpa using hv
      subst hv0
      simp [natBits_zero]
  | succ n ih =>
      intro v hv
      rw [List.range_succ_eq_map]
      simp only [List.filterMap_cons, List.filterMap_map]
      by_cases h0 : v = 0
      · subst h0
        simp [natBits_zero, Function.comp]
      · have htail : (List.range n).filterMap
            ((fun k => if v.testBit k then some (k + 1) else none) ∘ Nat.succ) =
            ((List.range n).filterMap fun k =>
              if (v / 2).testBit k then some (k + 1) else none).map (· + 1) := by
          rw [List.map_filterMap]
          apply List.filterMap_congr
          intro k _
          simp only [Function.comp]
          rw [show Nat.succ k = k + 1 from rfl, Nat.testBit_add_one]
          by_cases hb : (v / 2).testBit k
          · simp [hb]
          · simp [hb]
        have hdiv : v / 2 < 2 ^ n := by
          rw [pow_succ] at hv
          omega
        rw [natBits_eq v h0, Nat.testBit_zero]
        by_cases hodd : v % 2 = 1
        · simp [hodd, htail, ih (v / 2) hdiv]
        · simp [hodd, htail, ih (v / 2) hdiv]

theorem encodeBits_spec :
    ∀ (fuel v base last : Nat), v < fuel →
      encodeBitsAux fuel v (base + 1) last =
        specEncodeRec ((natBits v).map (· + (base + 1))) last := by
  intro fuel
  induction fuel with
  | zero =>
      intro v base last hv
      omega
  | succ fuel ih =>
      intro v base last hv
      by_cases h0 : v = 0
      · subst h0
        simp [encodeBitsAux, natBits_zero, specEncodeRec]
      · by_cases hodd : v % 2 = 1
        · simp only [encodeBitsAux, if_neg h0, if_pos hodd]
          rw [ih (v / 2) (base + 1) (base + 1) (by omega)]
          rw [natBits_eq v h0, if_pos hodd]
          simp only [List.map_append, List.map_cons, List.map_nil, List.singleton_append,
            List.nil_append]
          rw [map_add_add]
          have h12 : 1 + (base + 1) = base + 1 + 1 := by omega
          rw [h12]
          simp only [specEncodeRec, Nat.zero_add]
        · simp only [encodeBitsAux, if_neg h0, if_neg hodd]
          rw [ih (v / 2) (base + 1) last (by omega)]
          rw [natBits_eq v h0, if_neg hodd]
          simp only [List.nil_append]
          rw [map_add_add]
          have h12 : 1 + (base + 1) = base + 1 + 1 := by omega
          rw [h12]

theorem specFold_spec :
    ∀ (ps sp ex : List Nat) (last : Nat),
      (ps.foldl specStep (sp, ex, last)).1 = sp ++ (specEncodeRec ps last).1 ∧
      (ps.foldl specStep (sp, ex, last)).2.1 = ex ++ (specEncodeRec ps last).2 := by
  intro ps
  induction ps with
  | nil =>
      intro sp ex last
      simp [specEncodeRec]
  | cons i rest ih =>
      intro sp ex last
      by_cases h7 : 7 ≤ i - last
      · simp only [List.foldl_cons, specStep, if_pos h7]
        obtain ⟨ha, hb⟩ := ih (sp ++ [7]) (ex ++ [i - last - 7]) i
        rw [ha, hb]
        simp only [specEncodeRec, if_pos h7]
        simp [List.append_assoc]
      · simp only [List.foldl_cons, specStep, if_neg h7]
        obtain ⟨ha, hb⟩ := ih (sp ++ [i - last]) ex i
        rw [ha, hb]
        simp only [specEncodeRec, if_neg h7]
        simp [List.append_assoc]

theorem specEncodeSub_eq (d : Nat) (hd : d < 2 ^ 32) :
    specEncodeSub d = ((encodeSub d).1 ++ [0], (encodeSub d).2) := by
  have hpos : specPositions d = (natBits d).map (· + 1) := by
    unfold specPositions
    exact range_filterMap_testBit 32 d hd
  have henc : encodeSub d = specEncodeRec ((natBits d).map (· + 1)) 0 := by
    unfold encodeSub
    have := encodeBits_spec (d + 1) d 0 0 (by omega)
    norm_num at this
    exact this
  obtain ⟨ha, hb⟩ := specFold_spec ((natBits d).map (· + 1)) [] [] 0
  unfold specEncodeSub
  rw [hpos, henc]
  simp only [ha, hb, List.nil_append]

theorem compressSpans_spec :
    ∀ (fp : List Nat) (prev : Nat), (∀ x ∈ fp, x < 2 ^ 32) → prev < 2 ^ 32 →
      compressSpans fp prev =
        ((((specDeltas fp prev).map specEncodeSub).map Prod.fst).flatten,
         (((specDeltas fp prev).map specEncodeSub).map Prod.snd).flatten) := by
  intro fp
  induction fp with
  | nil =>
      intro prev h hp
      simp [compressSpans, specDeltas]
  | cons x rest ih =>
      intro prev h hp
      have hx : x < 2 ^ 32 := h x (by simp)
      have hd : x ^^^ prev < 2 ^ 32 := Nat.xor_lt_two_pow hx hp
      simp only [compressSpans, specDeltas, List.map_cons, List.flatten_cons]
      rw [ih x (fun y hy => h y (by simp [hy])) hx]
      rw [specEncodeSub_eq (x ^^^ prev) hd]
      simp [List.append_assoc]

/-! ### Claim theorems -/

/-- Claim C1: the round-trip property `decompress (compress xs id) = Ok (id, xs)`
fails on the code at the empty sequence: the compressor emits the header-only
buffer `[id, 0, 0, 0]`, and the decompressor rejects it with
`UnexpectedEndOfData`, because its scan only registers the `count`-th
terminator after seeing a terminator, which never happens for count 0.
This theorem evaluates both functions at the failing input `xs = []`,
`algorithm_id = 7`. -/
theorem c1_empty_roundtrip_fails :
    compress_fingerprint [] 7 = [7, 0, 0, 0] ∧
    decompress_fingerprint (compress_fingerprint [] 7) =
      some (.error .UnexpectedEndOfData) :=
  ⟨rfl, rfl⟩

/-- Claim C2: `compress [] id` is indeed the 4-byte buffer `[id, 0, 0, 0]`
(first conjunct), but decompressing that buffer returns
`Err(UnexpectedEndOfData)` rather than `Ok (id, [])` (second conjunct),
evaluated at `id = 5`. -/
theorem c2_empty_decompress_fails :
    compress_fingerprint [] 5 = [5, 0, 0, 0] ∧
    decompress_fingerprint [5, 0, 0, 0] = some (.error .UnexpectedEndOfData) :=
  ⟨rfl, rfl⟩

/-- Claim C3: the decompressor is not total in the claimed sense.  On input
`[0,0,0,1,7,26]` (count 1, span stream `7,0`, extension 26) the replay loop
reaches `bit_offset = 7 + 26 + ... = 33` and evaluates `1 << 32` on a `u32`:
under debug semantics this is an arithmetic-overflow panic (`none`), and
under release semantics the masked shift silently produces `Ok (0, [1])`
for malformed input.  Either way the claimed bound `bit_offset - 1 < 32`
is violated. -/
theorem c3_replay_shift_overflow :
    decompressChecked [0, 0, 0, 1, 7, 26] = none ∧
    decompress_fingerprint [0, 0, 0, 1, 7, 26] = some (.ok (0, [1])) :=
  ⟨rfl, rfl⟩

/-- Claim C4: `decompress_fingerprint` never returns `Err(IncompleteStride)`:
the spans are truncated at the index of the `count`-th terminator, so the
replayed span stream ends with a terminator 0 and the `fp` accumulator is 0
after the replay loop, for every input byte sequence. -/
theorem c4_never_incomplete_stride (bytes : List Nat) :
    decompress_fingerprint bytes ≠ some (.error .IncompleteStride) :=
  decompress_ne_incomplete bytes

/-- Claim C5: the span/extension streams of `compress_fingerprint` coincide
with the spec's description: XOR each sub-fingerprint with its predecessor
(0 for the first), scan the delta's set bits at 1-based positions 1..32 from
least significant, emit span `distance` for `1 ≤ distance ≤ 6` or span 7
plus 5-bit extension `distance - 7` for `distance ≥ 7`, and append a
terminator 0 per sub-fingerprint (a lone 0 when the delta is 0). -/
theorem c5_span_encoding (fp : List Nat) (h : ∀ x ∈ fp, x < 2 ^ 32) :
    compressSpans fp 0 = specStreams fp := by
  rw [compressSpans_spec fp 0 h (by norm_num)]
  rfl

/-- Witness for C5 at the concrete input `[64]` (span 7 with extension 0). -/
theorem c5_span_encoding_witness : compressSpans [64] 0 = specStreams [64] :=
  c5_span_encoding [64] (by decide)

/-- Claim C6: unpacking inverts packing up to trailing padding elements:
the first `|xs|` elements of `unpack3 (pack3 xs)` equal `xs` for 3-bit
values, and the first `|ys|` elements of `unpack5 (pack5 ys)` equal `ys`
for 5-bit values, covering every partial-stride tail length. -/
theorem c6_unpack_inverts_pack (xs ys : List Nat)
    (h3 : ∀ x ∈ xs, x < 8) (h5 : ∀ y ∈ ys, y < 32) :
    (unpack3 (pack3 xs)).take xs.length = xs ∧
    (unpack5 (pack5 ys)).take ys.length = ys :=
  ⟨unpack3_pack3 xs h3, unpack5_pack5 ys h5⟩

/-- Witness for C6 at the 9-element inputs of the repo's own test suite
(one full stride plus a partial stride each). -/
theorem c6_unpack_inverts_pack_witness :
    (unpack3 (pack3 [0, 1, 2, 3, 4, 5, 6, 7, 6])).take 9 = [0, 1, 2, 3, 4, 5, 6, 7, 6] ∧
    (unpack5 (pack5 [0, 1, 2, 3, 4, 5, 6, 7, 8])).take 9 = [0, 1, 2, 3, 4, 5, 6, 7, 8] :=
  c6_unpack_inverts_pack [0, 1, 2, 3, 4, 5, 6, 7, 6] [0, 1, 2, 3, 4, 5, 6, 7, 8]
    (by decide) (by decide)

/-- Counterexample to claim C7 as stated: at input `[0,0,0,0]` (valid header,
declared count 0) the code returns `Err(UnexpectedEndOfData)`, although the
count (0) does not exceed the bytes remaining after the header, and the span
stream is not exhausted before the declared number (0) of terminators has
been found (0 terminators are found immediately). -/
theorem c7_ueod_counterexample :
    decompress_fingerprint [0, 0, 0, 0] = some (.error .UnexpectedEndOfData) ∧
    ¬((4 : Nat) - 4 < parseCount [0, 0, 0, 0] ∨
      (unpack3 (List.drop 4 [0, 0, 0, 0])).count 0 < parseCount [0, 0, 0, 0]) :=
  ⟨rfl, by decide⟩

/-- Claim C7 (amended): given at least 4 input bytes,
`decompress_fingerprint` returns `Err(UnexpectedEndOfData)` exactly when the
declared 24-bit big-endian count exceeds the bytes remaining after the
header, or the declared count is 0 (the scan only registers the `count`-th
terminator after seeing one), or the unpacked span stream holds fewer than
`count` terminator spans. -/
theorem c7_ueod_characterization (bytes : List Nat) (h4 : 4 ≤ bytes.length) :
    decompress_fingerprint bytes = some (.error .UnexpectedEndOfData) ↔
      bytes.length - 4 < parseCount bytes ∨ parseCount bytes = 0 ∨
        (unpack3 (bytes.drop 4)).count 0 < parseCount bytes :=
  decompress_ueod_iff bytes h4

/-- Witness for the amended C7 at the concrete input `[0,0,0,2,1]`
(count 2, but only one terminator in the span stream). -/
theorem c7_ueod_characterization_witness :
    decompress_fingerprint [0, 0, 0, 2, 1] = some (.error .UnexpectedEndOfData) ↔
      (5 : Nat) - 4 < parseCount [0, 0, 0, 2, 1] ∨ parseCount [0, 0, 0, 2, 1] = 0 ∨
        (unpack3 (List.drop 4 [0, 0, 0, 2, 1])).count 0 < parseCount [0, 0, 0, 2, 1] :=
  c7_ueod_characterization [0, 0, 0, 2, 1] (by decide)

/-- Claim C8: when the scan finds the `count`-th terminator at index `i`
having seen `c` sevens, and fewer than `c` 5-bit extensions unpack from byte
offset `4 + pack3_size (i+1)` (the true span-stream length is `i+1`),
`decompress_fingerprint` returns `Err(MissingExtension(expected, actual))`
with `expected = c` — the number of 7-valued spans up to and including the
`count`-th terminator (second conjunct) — and `actual` the number of
extensions available. -/
theorem c8_missing_extension (bytes : List Nat) (i c : Nat)
    (h4 : ¬bytes.length < 4)
    (hg : ¬bytes.length - 4 < parseCount bytes)
    (hscan : scanSpans (parseCount bytes) (unpack3 (bytes.drop 4)) 0 0 0 = some (i, c))
    (hmiss : (unpack5 (bytes.drop (4 + pack3_size (i + 1)))).length < c) :
    decompress_fingerprint bytes =
      some (.error (.MissingExtension c
        (unpack5 (bytes.drop (4 + pack3_size (i + 1)))).length)) ∧
      c = ((unpack3 (bytes.drop 4)).take (i + 1)).count 7 :=
  decompress_missing_ext bytes i c h4 hg hscan hmiss

/-- Witness for C8 at the concrete input `[0,0,0,1,7]` (count 1, span
stream `7,0`, no extension bytes): `MissingExtension(1, 0)`. -/
theorem c8_missing_extension_witness :
    decompress_fingerprint [0, 0, 0, 1, 7] =
      some (.error (.MissingExtension 1
        (unpack5 (List.drop (4 + pack3_size 2) [0, 0, 0, 1, 7])).length)) ∧
    (1 : Nat) = ((unpack3 (List.drop 4 [0, 0, 0, 1, 7])).take 2).count 7 :=
  c8_missing_extension [0, 0, 0, 1, 7] 1 1 (by decide) (by decide) (by decide) (by decide)

/-- Claim C9: `pack3_size n` is the exact ceiling `⌈3n/8⌉` (characterized by
`3n ≤ 8⬝pack3_size n < 3n + 8`), and `pack3` appends exactly
`pack3_size |xs|` bytes for every input, covering all tail lengths 0–7. -/
theorem c9_pack3_size_exact (xs : List Nat) :
    (pack3 xs).length = pack3_size xs.length ∧
    3 * xs.length ≤ 8 * pack3_size xs.length ∧
    8 * pack3_size xs.length < 3 * xs.length + 8 := by
  refine ⟨pack3_length xs, ?_, ?_⟩
  · unfold pack3_size
    omega
  · unfold pack3_size
    omega

/-- Claim C10: `pack5_size n = (n/8 + 1) * 5`, this is always at least the
number of bytes `pack5` actually appends, and when `n` is an exact multiple
of 8 the reserved size exceeds the written bytes by an entire
5-byte stride. -/
theorem c10_pack5_size_slack (ys : List Nat) :
    pack5_size ys.length = (ys.length / 8 + 1) * 5 ∧
    (pack5 ys).length ≤ pack5_size ys.length ∧
    (8 ∣ ys.length → pack5_size ys.length = (pack5 ys).length + 5) := by
  refine ⟨rfl, ?_, ?_⟩
  · rw [pack5_length]
    unfold pack5_size
    omega
  · intro hdvd
    rw [pack5_length]
    unfold pack5_size
    obtain ⟨k, hk⟩ := hdvd
    omega

/-- Witness for C10 at an exact multiple of 8: eight elements pack into
5 bytes while `pack5_size 8 = 10`. -/
theorem c10_pack5_size_slack_witness :
    pack5_size 8 = (pack5 [0, 0, 0, 0, 0, 0, 0, 0]).length + 5 :=
  (c10_pack5_size_slack [0, 0, 0, 0, 0, 0, 0, 0]).2.2 (by decide)
